import Mathlib

/-!
Verification of the PDF color-space evaluation subsystem (pdf.js `src/core`):
`cs.js` (base class `CS`, `fillRgb`, `resizeRgbImage`, the common
`isDefaultDecode`), `alternate_cs.js` (`AlternateCS`, `IndexedCS`),
`cal_gray_cs.js` (`CalGrayCS`), `device_cmyk_cs.js` (`DeviceCmykCS`,
`DeviceRgbCS`), `colorspace.js` (`ColorSpace.getCached`, `CalRGBCS`, `LabCS`)
and `device_gray_cs.js` (`DeviceGrayCS`).

Modelling conventions for the JavaScript source:
* Typed-array byte buffers (`Uint8ClampedArray`, `Uint8Array`) are `List Nat`.
  A read `buf[i]` is `buf.getD i 0` (an out-of-range read yields `undefined`,
  which every arithmetic sink in this code turns into a `0` byte once it is
  stored into a clamped array); a write `buf[i] = v` is `buf.set i v`, which
  like a typed-array write silently drops out-of-range stores.
* A store into a `Uint8ClampedArray` saturates to `[0,255]` (`clampStore`).
* JavaScript numbers are modelled as exact rationals `ℚ` where the source
  computes with non-integers (scales, `getOutputLength` divisions, the Lab
  pipeline); `x | 0` is `ToInt32`: truncation toward zero followed by the
  wrap modulo `2^32` into `[-2^31, 2^31)` (`jsToInt32`).
* `Math.sqrt` (Lab) lives in `ℝ`; `Math.sqrt` of a negative argument is `NaN`
  and a `NaN` stored into a clamped array becomes `0`, which `labStore`
  reproduces with an explicit test.
-/

namespace PdfCS

/-- Store semantics of one `Uint8ClampedArray` element write: saturate the
(nonnegative integer) value to `[0, 255]`. -/
def clampStore (v : Nat) : Nat := min v 255

/-- Write one RGB triple at `dest[off], dest[off+1], dest[off+2]` with
clamped-store semantics; out-of-range writes are dropped, as for a typed
array. -/
def write3 (dest : List Nat) (off : Nat) (t : Nat × Nat × Nat) : List Nat :=
  ((dest.set off (clampStore t.1)).set (off + 1) (clampStore t.2.1)).set
    (off + 2) (clampStore t.2.2)

/-- Component selector for an RGB triple: `0 ↦ r`, `1 ↦ g`, `_ ↦ b`. -/
def tsel (t : Nat × Nat × Nat) : Nat → Nat
  | 0 => t.1
  | 1 => t.2.1
  | _ => t.2.2

/-- The strided pixel-writing loop shared by every `getRgbBuffer`
implementation and by the pixel loops inside `CS.fillRgb` and
`resizeRgbImage`: write `count` RGB triples (`pix 0`, `pix 1`, …) into `dest`
starting at `off`, advancing by `step` bytes per pixel (`step = 3 + alpha01`,
leaving the `alpha01` trailing bytes of each pixel untouched). -/
def fillPixels (pix : Nat → Nat × Nat × Nat) (count : Nat) (dest : List Nat)
    (off step : Nat) : List Nat :=
  match count with
  | 0 => dest
  | c + 1 => fillPixels (fun i => pix (i + 1)) c (write3 dest off (pix 0)) (off + step) step

theorem getD_set (l : List Nat) (i j a : Nat) :
    (l.set i a).getD j 0 = if i = j ∧ j < l.length then a else l.getD j 0 := by
  simp only [List.getD_eq_getElem?_getD, List.getElem?_set]
  by_cases hij : i = j
  · subst hij
    by_cases hl : i < l.length
    · simp [hl]
    · simp [hl, List.getElem?_eq_none (by omega : l.length ≤ i)]
  · simp [hij]

theorem getD_eq_zero_of_le (l : List Nat) (j : Nat) (h : l.length ≤ j) :
    l.getD j 0 = 0 := by
  simp [List.getD_eq_getElem?_getD, List.getElem?_eq_none h]

theorem write3_length (dest : List Nat) (off : Nat) (t : Nat × Nat × Nat) :
    (write3 dest off t).length = dest.length := by
  simp [write3]

theorem write3_getD (dest : List Nat) (off : Nat) (t : Nat × Nat × Nat) (j : Nat) :
    (write3 dest off t).getD j 0 =
      if off ≤ j ∧ j ≤ off + 2 ∧ j < dest.length
      then clampStore (tsel t (j - off))
      else dest.getD j 0 := by
  rcases t with ⟨r, g, b⟩
  unfold write3
  rw [getD_set, getD_set, getD_set]
  simp only [List.length_set]
  by_cases hl : j < dest.length
  · by_cases h2 : off + 2 = j
    · rw [if_pos ⟨h2, hl⟩, if_pos ⟨by omega, by omega, hl⟩]
      have hd : j - off = 2 := by omega
      rw [hd]
      rfl
    · rw [if_neg (fun h => h2 h.1)]
      by_cases h1 : off + 1 = j
      · rw [if_pos ⟨h1, hl⟩, if_pos ⟨by omega, by omega, hl⟩]
        have hd : j - off = 1 := by omega
        rw [hd]
        rfl
      · rw [if_neg (fun h => h1 h.1)]
        by_cases h0 : off = j
        · rw [if_pos ⟨h0, hl⟩, if_pos ⟨by omega, by omega, hl⟩]
          have hd : j - off = 0 := by omega
          rw [hd]
          rfl
        · rw [if_neg (fun h => h0 h.1), if_neg (by omega)]
  · rw [if_neg (fun h => hl h.2), if_neg (fun h => hl h.2), if_neg (fun h => hl h.2),
      if_neg (fun h => hl h.2.2)]

theorem fillPixels_length (pix : Nat → Nat × Nat × Nat) (count : Nat)
    (dest : List Nat) (off step : Nat) :
    (fillPixels pix count dest off step).length = dest.length := by
  induction count generalizing pix dest off with
  | zero => rfl
  | succ c ih => simp [fillPixels, ih, write3_length]

/-- Full characterization of `fillPixels` (for a stride of at least 3 bytes
per pixel, so consecutive triples never overlap): byte `j` of the result is
component `(j - off) % step` of pixel `(j - off) / step` when `j` falls on one
of the written triple bytes inside the buffer, and is untouched otherwise. -/
theorem fillPixels_getD (step : Nat) (h3 : 3 ≤ step) (pix : Nat → Nat × Nat × Nat)
    (count : Nat) (dest : List Nat) (off j : Nat) :
    (fillPixels pix count dest off step).getD j 0 =
      if off ≤ j ∧ j < off + count * step ∧ (j - off) % step < 3 ∧ j < dest.length
      then clampStore (tsel (pix ((j - off) / step)) ((j - off) % step))
      else dest.getD j 0 := by
  induction count generalizing pix dest off with
  | zero =>
    rw [if_neg (by omega)]
    rfl
  | succ c ih =>
    show (fillPixels (fun i => pix (i + 1)) c (write3 dest off (pix 0)) (off + step) step).getD j 0 = _
    rw [ih, write3_length]
    by_cases hlow : off ≤ j
    · by_cases hfst : j < off + step
      · -- j lies inside the first pixel's stride
        rw [if_neg (by omega), write3_getD]
        have hsub : j - off < step := by omega
        have hmod : (j - off) % step = j - off := Nat.mod_eq_of_lt hsub
        have hdiv : (j - off) / step = 0 := Nat.div_eq_of_lt hsub
        have hstep : step ≤ (c + 1) * step := Nat.le_mul_of_pos_left step (by omega)
        by_cases hin : j ≤ off + 2 ∧ j < dest.length
        · rw [if_pos ⟨hlow, hin.1, hin.2⟩,
            if_pos ⟨hlow, by omega, by rw [hmod]; omega, hin.2⟩, hmod, hdiv]
        · rw [if_neg (fun h => hin ⟨h.2.1, h.2.2⟩),
            if_neg (by rw [hmod]; intro h; exact hin ⟨by omega, h.2.2.2⟩)]
      · -- j is at or beyond the second pixel
        have hge : off + step ≤ j := by omega
        have hjoff : j - off = (j - (off + step)) + step := by omega
        have hmod : (j - off) % step = (j - (off + step)) % step := by
          rw [hjoff, Nat.add_mod_right]
        have hdiv : (j - off) / step = (j - (off + step)) / step + 1 := by
          rw [hjoff, Nat.add_div_right _ (by omega)]
        have hmul : off + (c + 1) * step = off + step + c * step := by ring
        rw [hmul, hmod, hdiv]
        by_cases hc : j < off + step + c * step ∧ (j - (off + step)) % step < 3 ∧ j < dest.length
        · rw [if_pos ⟨hge, hc.1, hc.2.1, hc.2.2⟩, if_pos ⟨hlow, hc⟩]
        · rw [if_neg (fun h => hc ⟨h.2.1, h.2.2.1, h.2.2.2⟩),
            if_neg (fun h => hc h.2), write3_getD, if_neg (by omega)]
    · rw [if_neg (by omega), if_neg (by omega), write3_getD, if_neg (by omega)]

/-- Frame corollary: `fillPixels` leaves every byte at or beyond
`off + count * step` (and every byte before `off`) unchanged. -/
theorem fillPixels_frame (step : Nat) (h3 : 3 ≤ step) (pix : Nat → Nat × Nat × Nat)
    (count : Nat) (dest : List Nat) (off j : Nat)
    (h : j < off ∨ off + count * step ≤ j) :
    (fillPixels pix count dest off step).getD j 0 = dest.getD j 0 := by
  rw [fillPixels_getD step h3, if_neg (by omega)]

/-- `resizeRgbImage` from `cs.js`: nearest-neighbor resize of a 3-component
RGB image.  `alpha01` is forced to `0` unless it is exactly `1`.  The
`xScaled` table is a `Uint16Array`, so each stored entry
`Math.floor(i * (w1 / w2)) * 3` is reduced modulo `2^16`; the ratio products
are modelled as exact rationals.  The nested row/column loops advance the
destination uniformly by `3 + alpha01` bytes per output pixel, i.e. output
pixel `p = y * w2 + x` in row-major order. -/
def resizeRgbImage (src dest : List Nat) (w1 h1 w2 h2 alpha01 : Nat) : List Nat :=
  let a := if alpha01 != 1 then 0 else alpha01
  let w1Scanline := w1 * 3
  let xScaled : List Nat :=
    (List.range w2).map (fun (i : Nat) => ((⌊((i : ℚ) * (w1 : ℚ) / (w2 : ℚ))⌋).toNat * 3) % 65536)
  fillPixels
    (fun p =>
      let py := (⌊(((p / w2 : Nat) : ℚ) * (h1 : ℚ) / (h2 : ℚ))⌋).toNat * w1Scanline
      let oldIndex := py + xScaled.getD (p % w2) 0
      (src.getD oldIndex 0, src.getD (oldIndex + 1) 0, src.getD (oldIndex + 2) 0))
    (h2 * w2) dest 0 (3 + a)

/-- A concrete color space as seen by the base-class algorithm `CS.fillRgb`:
the dynamically dispatched data it consults (`this.name`, `this.numComps`,
`this.isPassthrough`) together with the per-sample conversion kernel
`item src srcOffset bits` that its `getRgbBuffer` applies to the
`numComps` input samples at `srcOffset`, yielding one RGB triple.  Every
concrete `getRgbBuffer` in the repository (CalGray, CalRGB, Lab, DeviceGray,
DeviceRGB, DeviceCMYK, Indexed, Alternate) is such a strided per-sample
loop. -/
structure VSpace where
  name : String
  numComps : Nat
  isPt : Nat → Bool
  item : List Nat → Nat → Nat → Nat × Nat × Nat

/-- The shared shape of `getRgbBuffer(src, srcOffset, count, dest,
destOffset, bits, alpha01)`: convert `count` samples, reading `numComps`
source entries per sample and writing one RGB triple every `3 + alpha01`
destination bytes. -/
def getRgbBufferV (sp : VSpace) (src : List Nat) (srcOffset count : Nat)
    (dest : List Nat) (destOffset bits alpha01 : Nat) : List Nat :=
  fillPixels (fun i => sp.item src (srcOffset + i * sp.numComps) bits) count dest
    destOffset (3 + alpha01)

/-- One pixel of the color-map fast path of `CS.fillRgb`:
`key = comps[i] * 3` and the triple `colorMap[key], colorMap[key+1],
colorMap[key+2]`.  When `i` is outside `comps`, `comps[i]` is `undefined`,
`key` is `NaN`, each `colorMap[NaN]` read is `undefined` and the clamped
store makes the written byte `0`; a `key` beyond `colorMap` likewise reads
`undefined` and stores `0`. -/
def fastPix (comps colorMap : List Nat) (i : Nat) : Nat × Nat × Nat :=
  match comps.get? i with
  | none => (0, 0, 0)
  | some v => (colorMap.getD (v * 3) 0, colorMap.getD (v * 3 + 1) 0, colorMap.getD (v * 3 + 2) 0)

/-- `CS.fillRgb(dest, originalWidth, originalHeight, width, height,
actualHeight, bpc, comps, alpha01)` from `cs.js`, parameterized by the
concrete space `sp` (the `this` of the dynamic dispatch).

* passthrough: `rgbBuf = comps`;
* color-map fast path (`numComps == 1 && count > 2^bpc && name` neither
  `DeviceGray` nor `DeviceRGB`): build `colorMap` by one `getRgbBuffer` call
  on `allColors = [0, …, 2^bpc - 1]` with `alpha01 = 0`, then either write
  palette lookups for all `count = originalWidth * originalHeight` pixels
  straight into `dest` (no resize) or into a 3-byte-per-pixel `rgbBuf`;
* direct: one `getRgbBuffer` of `width * actualHeight` samples straight into
  `dest` (no resize) or of `count` samples into `rgbBuf`;
* a produced `rgbBuf` is resized into `dest`, or (passthrough, no resize)
  copied pixelwise into `dest` honoring `alpha01`. -/
def fillRgbV (sp : VSpace) (dest : List Nat)
    (originalWidth originalHeight width height actualHeight bpc : Nat)
    (comps : List Nat) (alpha01 : Nat) : List Nat :=
  let count := originalWidth * originalHeight
  let numComponentColors := 2 ^ bpc
  let needsResizing : Bool :=
    (originalHeight != height) || (originalWidth != width)
  if sp.isPt bpc then
    -- rgbBuf = comps
    if needsResizing then
      resizeRgbImage comps dest originalWidth originalHeight width height alpha01
    else
      fillPixels
        (fun i => (comps.getD (i * 3) 0, comps.getD (i * 3 + 1) 0, comps.getD (i * 3 + 2) 0))
        (width * actualHeight) dest 0 (3 + alpha01)
  else if sp.numComps == 1 && decide (count > numComponentColors) &&
      (sp.name != "DeviceGray") && (sp.name != "DeviceRGB") then
    let allColors := List.range numComponentColors
    let colorMap := getRgbBufferV sp allColors 0 numComponentColors
      (List.replicate (numComponentColors * 3) 0) 0 bpc 0
    if !needsResizing then
      fillPixels (fastPix comps colorMap) count dest 0 (3 + alpha01)
    else
      let rgbBuf := fillPixels (fastPix comps colorMap) count
        (List.replicate (count * 3) 0) 0 3
      resizeRgbImage rgbBuf dest originalWidth originalHeight width height alpha01
  else
    if !needsResizing then
      getRgbBufferV sp comps 0 (width * actualHeight) dest 0 bpc alpha01
    else
      let rgbBuf := getRgbBufferV sp comps 0 count (List.replicate (count * 3) 0) 0 bpc 0
      resizeRgbImage rgbBuf dest originalWidth originalHeight width height alpha01

/-- The concrete pixel-evaluable color-space families of the repository,
with the structure that `numComps` and `getOutputLength` depend on: Indexed
and Alternate carry their base space, Alternate also its `numComps`
(1 for Separation, the name-array length for DeviceN).  `PatternCS` is
excluded: it defines no conversion operations. -/
inductive CSpace where
  | deviceGray
  | deviceRgb
  | deviceCmyk
  | calGray
  | calRgb
  | lab
  | indexed (base : CSpace)
  | alternate (numComps : Nat) (base : CSpace)
deriving DecidableEq

/-- `numComps` of each family, as set in each constructor`s `super` call
(`DeviceGray` 1, `DeviceRGB` 3, `DeviceCMYK` 4, `CalGray` 1, `CalRGB` 3,
`Lab` 3, `Indexed` 1, `Alternate` its own count). -/
def numCompsCS : CSpace → Nat
  | .deviceGray => 1
  | .deviceRgb => 3
  | .deviceCmyk => 4
  | .calGray => 1
  | .calRgb => 3
  | .lab => 3
  | .indexed _ => 1
  | .alternate n _ => n

/-- `isPassthrough(bits)`: the base class returns `false`; the only override
is `DeviceRgbCS`, which returns `bits === 8`. -/
def isPassthroughCS : CSpace → Nat → Bool
  | .deviceRgb, bits => bits == 8
  | _, _ => false

/-- JavaScript `x | 0` on a rational value: `ToInt32` — truncate toward
zero, then wrap modulo `2^32` into `[-2^31, 2^31)`. -/
def jsToInt32 (q : ℚ) : ℤ :=
  let t : ℤ := if 0 ≤ q then ⌊q⌋ else -⌊-q⌋
  (t + 2 ^ 31) % 2 ^ 32 - 2 ^ 31

/-- `getOutputLength(inputLength, alpha01)` of each family, over exact
rationals (`| 0` is the 32-bit `ToInt32` wrap, `jsToInt32`):
* CalGray, DeviceGray: `inputLength * (3 + alpha01)`;
* DeviceRGB, CalRGB, Lab: `((inputLength * (3 + alpha01)) / 3) | 0`;
* DeviceCMYK: `((inputLength / 4) * (3 + alpha01)) | 0`;
* Indexed: forwards `inputLength * base.numComps` to the base;
* Alternate: forwards `inputLength * base.numComps / numComps` to the
  base. -/
def getOutputLengthQ : CSpace → ℚ → ℚ → ℚ
  | .deviceGray, inputLength, alpha01 => inputLength * (3 + alpha01)
  | .calGray, inputLength, alpha01 => inputLength * (3 + alpha01)
  | .deviceRgb, inputLength, alpha01 => ((jsToInt32 (inputLength * (3 + alpha01) / 3) : ℤ) : ℚ)
  | .calRgb, inputLength, alpha01 => ((jsToInt32 (inputLength * (3 + alpha01) / 3) : ℤ) : ℚ)
  | .lab, inputLength, alpha01 => ((jsToInt32 (inputLength * (3 + alpha01) / 3) : ℤ) : ℚ)
  | .deviceCmyk, inputLength, alpha01 => ((jsToInt32 ((inputLength / 4) * (3 + alpha01)) : ℤ) : ℚ)
  | .indexed base, inputLength, alpha01 =>
      getOutputLengthQ base (inputLength * (numCompsCS base : ℚ)) alpha01
  | .alternate n base, inputLength, alpha01 =>
      getOutputLengthQ base (inputLength * (numCompsCS base : ℚ) / (n : ℚ)) alpha01

theorem jsToInt32_coe_nat (n : Nat) (h : n < 2 ^ 31) : jsToInt32 ((n : Nat) : ℚ) = (n : ℤ) := by
  unfold jsToInt32
  rw [if_pos (by positivity), Int.floor_natCast]
  have h1 : (0 : ℤ) ≤ (n : ℤ) + 2 ^ 31 := by positivity
  have h2 : ((n : ℤ)) + 2 ^ 31 < 2 ^ 32 := by
    have hn : (n : ℤ) < 2 ^ 31 := by exact_mod_cast h
    omega
  show ((n : ℤ) + 2 ^ 31) % 2 ^ 32 - 2 ^ 31 = (n : ℤ)
  rw [Int.emod_eq_of_lt h1 h2]
  omega

/-- Well-formedness from the data model: every Alternate node has at least
one input component (1 for Separation, the number of colorant names for
DeviceN). -/
def wfCS : CSpace → Bool
  | .indexed base => wfCS base
  | .alternate n base => decide (1 ≤ n) && wfCS base
  | _ => true

/-- Write a list of byte values at consecutive positions starting at `off`,
with clamped-store semantics (`Uint8ClampedArray.prototype.set`). -/
def setList (dest : List Nat) (off : Nat) (vals : List Nat) : List Nat :=
  match vals with
  | [] => dest
  | v :: vs => setList (dest.set off (clampStore v)) (off + 1) vs

/-- `ToUint8Clamp` of an exact rational: clamp to `[0, 255]` and round half
to even. -/
def clampedRound (q : ℚ) : Nat :=
  if q ≤ 0 then 0
  else if 255 ≤ q then 255
  else
    let f := ⌊q⌋
    let frac := q - (f : ℚ)
    if frac < 1 / 2 then f.toNat
    else if 1 / 2 < frac then f.toNat + 1
    else if 2 ∣ f then f.toNat else f.toNat + 1

/-- The scalar path of `DeviceRgbCS.getRgbBuffer`: one output byte
`scale * src` with `scale = 255 / (2^bits - 1)` (the source computes the
scale in binary floating point; it is modelled as the exact rational). -/
def rgbScaleByte (bits v : Nat) : Nat :=
  clampedRound ((255 / ((2 ^ bits - 1 : Nat) : ℚ)) * (v : ℚ))

/-- `DeviceRgbCS.getRgbBuffer` from `device_rgb_cs.js`: at `bits == 8 &&
alpha01 === 0` one contiguous copy of `count * 3` bytes
(`dest.set(src.subarray(srcOffset, srcOffset + count * 3), destOffset)`);
otherwise the scalar loop writing `scale * src` per component with `alpha01`
bytes skipped per pixel. -/
def deviceRgbGetRgbBuffer (src : List Nat) (srcOffset count : Nat)
    (dest : List Nat) (destOffset bits alpha01 : Nat) : List Nat :=
  if bits == 8 && alpha01 == 0 then
    setList dest destOffset ((src.drop srcOffset).take (count * 3))
  else
    fillPixels
      (fun i =>
        (rgbScaleByte bits (src.getD (srcOffset + i * 3) 0),
         rgbScaleByte bits (src.getD (srcOffset + i * 3 + 1) 0),
         rgbScaleByte bits (src.getD (srcOffset + i * 3 + 2) 0)))
      count dest destOffset (3 + alpha01)

/-- JavaScript `Number.isInteger` on a rational value. -/
def jsIsInteger (q : ℚ) : Bool := q.den == 1

/-- JavaScript `1 << b` for a nonnegative integer `b`: the shift count is
taken modulo 32 and the result is a signed 32-bit integer, so a shift count
of 31 yields `-2^31`. -/
def jsShl1 (b : Nat) : ℤ :=
  let k := b % 32
  if k = 31 then -(2 ^ 31) else 2 ^ k

/-- A decode map argument: either not an array, or an array of numbers. -/
abbrev DecodeMap := Option (List ℚ)

/-- `IndexedCS.isDefaultDecode(decodeMap, bpc)` from `indexed_cs.js`:
non-arrays are the default; a wrong length warns and is the default; a
non-positive-integer `bpc` warns and is the default; otherwise the map is
the default exactly when it is `[0, (1 << bpc) - 1]`. -/
def indexedIsDefaultDecode (decodeMap : DecodeMap) (bpc : ℚ) : Bool :=
  match decodeMap with
  | none => true
  | some m =>
    if m.length != 2 then
      true  -- warn("Decode map length is not correct")
    else if !jsIsInteger bpc || bpc < 1 then
      true  -- warn("Bits per component is not correct")
    else
      decide (m.getD 0 0 = 0 ∧ m.getD 1 0 = ((jsShl1 bpc.num.toNat : ℤ) : ℚ) - 1)

/-- The common `isDefaultDecode(decode, numComps)` from `cs.js`: true when
the decode value is not an array; true (with a warning) when the length is
not `2 * numComps`; otherwise false as soon as some pair differs from
`(0, 1)`. -/
def commonIsDefaultDecode (decode : DecodeMap) (numComps : Nat) : Bool :=
  match decode with
  | none => true
  | some d =>
    if numComps * 2 != d.length then
      true  -- warn("The decode map is not the correct length")
    else
      decide (∀ i < numComps, d.getD (2 * i) 0 = 0 ∧ d.getD (2 * i + 1) 0 = 1)

/-- A PDF object as far as `ColorSpace.getCached` inspects it: an indirect
reference, a name, or anything else. -/
inductive PObj where
  | ref (r : Nat)
  | name (s : String)
  | other
deriving DecidableEq

/-- What `xref.fetch` can throw: the sentinel `MissingDataException` or any
other exception. -/
inductive FetchErr where
  | missingData
  | otherErr
deriving DecidableEq

/-- `ColorSpace.getCached(cacheKey, xref, localColorSpaceCache)` from
`colorspace.js`, with cached color spaces modelled as identifiers.  For a
reference key: probe the by-ref cache; on a miss, `xref.fetch` the key — a
`MissingDataException` is re-thrown, any other exception is swallowed
(leaving the key unchanged).  Then, if the (possibly fetched) key is a name,
probe the by-name cache; otherwise, and on a by-name miss, return null. -/
def getCached (fetch : Nat → Except FetchErr PObj)
    (byRef : Nat → Option Nat) (byName : String → Option Nat)
    (cacheKey : PObj) : Except FetchErr (Option Nat) :=
  let nameLookup : PObj → Option Nat := fun k =>
    match k with
    | .name s => byName s
    | _ => none
  match cacheKey with
  | .ref r =>
    match byRef r with
    | some localColorSpace => .ok (some localColorSpace)
    | none =>
      match fetch r with
      | .ok fetched => .ok (nameLookup fetched)
      | .error .missingData => .error .missingData
      | .error .otherErr => .ok (nameLookup (.ref r))
  | k => .ok (nameLookup k)

/-- State of a constructed `CalGrayCS` (`cal_gray_cs.js`). -/
structure CalGrayS where
  XW : ℚ
  YW : ℚ
  ZW : ℚ
  XB : ℚ
  YB : ℚ
  ZB : ℚ
  G : ℚ
deriving DecidableEq

/-- `CalGrayCS` constructor: missing whitepoint throws `FormatError`;
`blackPoint || [0, 0, 0]`; `gamma || 1` (so a gamma of 0 becomes 1);
`XW < 0 || ZW < 0 || YW !== 1` throws `FormatError`; a blackpoint with a
negative component is logged at `info` and replaced by `(0, 0, 0)`;
`G < 1` is logged at `info` and replaced by 1. -/
def mkCalGray (whitePoint blackPoint : Option (ℚ × ℚ × ℚ)) (gamma : Option ℚ) :
    Except Unit CalGrayS :=
  match whitePoint with
  | none => .error ()  -- FormatError: WhitePoint missing
  | some (xw, yw, zw) =>
    let bp := blackPoint.getD (0, 0, 0)
    let g0 := match gamma with
      | none => 1
      | some q => if q = 0 then 1 else q
    if xw < 0 ∨ zw < 0 ∨ yw ≠ 1 then .error ()  -- FormatError: invalid WhitePoint
    else
      let bp1 := if bp.1 < 0 ∨ bp.2.1 < 0 ∨ bp.2.2 < 0 then ((0 : ℚ), (0 : ℚ), (0 : ℚ)) else bp
      -- a remaining non-default blackpoint only warns; it is kept
      let g1 := if g0 < 1 then 1 else g0
      .ok ⟨xw, yw, zw, bp1.1, bp1.2.1, bp1.2.2, g1⟩

/-- State of a constructed `CalRGBCS` (`colorspace.js`). -/
structure CalRGBS where
  whitePoint : ℚ × ℚ × ℚ
  blackPoint : ℚ × ℚ × ℚ
  GR : ℚ
  GG : ℚ
  GB : ℚ
  matrix : List ℚ
deriving DecidableEq

/-- `CalRGBCS` constructor: missing whitepoint throws `FormatError`;
`blackPoint || new Float32Array(3)`; `gamma || [1, 1, 1]`;
`matrix || [1, 0, 0, 0, 1, 0, 0, 0, 1]`; `XW < 0 || ZW < 0 || YW !== 1`
throws `FormatError`; a blackpoint with a negative component is logged at
`info` and replaced by `(0, 0, 0)`; a gamma with a negative component is
logged at `info` and replaced by `(1, 1, 1)`. -/
def mkCalRGB (whitePoint blackPoint gamma : Option (ℚ × ℚ × ℚ))
    (matrix : Option (List ℚ)) : Except Unit CalRGBS :=
  match whitePoint with
  | none => .error ()  -- FormatError: WhitePoint missing
  | some (xw, yw, zw) =>
    let bp := blackPoint.getD (0, 0, 0)
    let g := gamma.getD (1, 1, 1)
    let m := matrix.getD [1, 0, 0, 0, 1, 0, 0, 0, 1]
    if xw < 0 ∨ zw < 0 ∨ yw ≠ 1 then .error ()  -- FormatError: invalid WhitePoint
    else
      let bp1 := if bp.1 < 0 ∨ bp.2.1 < 0 ∨ bp.2.2 < 0 then ((0 : ℚ), (0 : ℚ), (0 : ℚ)) else bp
      let g1 := if g.1 < 0 ∨ g.2.1 < 0 ∨ g.2.2 < 0 then ((1 : ℚ), (1 : ℚ), (1 : ℚ)) else g
      .ok ⟨(xw, yw, zw), bp1, g1.1, g1.2.1, g1.2.2, m⟩

/-- State of a constructed `LabCS` (`colorspace.js` / `lab_cs.js`). -/
structure LabS where
  XW : ℚ
  YW : ℚ
  ZW : ℚ
  amin : ℚ
  amax : ℚ
  bmin : ℚ
  bmax : ℚ
  XB : ℚ
  YB : ℚ
  ZB : ℚ
deriving DecidableEq

/-- `LabCS` constructor: missing whitepoint throws `FormatError`;
`blackPoint || [0, 0, 0]`; `range || [-100, 100, -100, 100]`;
`XW < 0 || ZW < 0 || YW !== 1` throws `FormatError`; a blackpoint with a
negative component is logged at `info` and replaced by `(0, 0, 0)`;
`amin > amax || bmin > bmax` is logged at `info` and the range is reset to
the default. -/
def mkLab (whitePoint blackPoint : Option (ℚ × ℚ × ℚ))
    (range : Option (ℚ × ℚ × ℚ × ℚ)) : Except Unit LabS :=
  match whitePoint with
  | none => .error ()  -- FormatError: WhitePoint missing
  | some (xw, yw, zw) =>
    let bp := blackPoint.getD (0, 0, 0)
    let rg := range.getD (-100, 100, -100, 100)
    if xw < 0 ∨ zw < 0 ∨ yw ≠ 1 then .error ()  -- FormatError: invalid WhitePoint
    else
      let bp1 := if bp.1 < 0 ∨ bp.2.1 < 0 ∨ bp.2.2 < 0 then ((0 : ℚ), (0 : ℚ), (0 : ℚ)) else bp
      let rg1 := if rg.1 > rg.2.1 ∨ rg.2.2.1 > rg.2.2.2
        then ((-100 : ℚ), (100 : ℚ), (-100 : ℚ), (100 : ℚ)) else rg
      .ok ⟨xw, yw, zw, rg1.1, rg1.2.1, rg1.2.2.1, rg1.2.2.2, bp1.1, bp1.2.1, bp1.2.2⟩

/-- The lookup argument of the `IndexedCS` constructor: a binary stream (its
available bytes), a string (its UTF-16 code units), or anything else. -/
inductive LookupSrc where
  | stream (bytes : List Nat)
  | str (codes : List Nat)
  | other
deriving DecidableEq

/-- The palette construction of the `IndexedCS` constructor
(`indexed_cs.js`): `length = base.numComps * highVal`; `this.lookup = new
Uint8Array(length)` (zero-initialized).  A stream contributes
`getBytes(length)` — at most `length` bytes, fewer when the stream is short —
copied from position 0.  A string contributes `charCodeAt(i) & 0xff` for
every `i < length`; `charCodeAt` out of range is `NaN` and `NaN & 0xff` is
`0`.  Any other lookup throws `FormatError`. -/
def mkIndexedLookup (baseNumComps highVal : Nat) (lookup : LookupSrc) :
    Except Unit (List Nat) :=
  let length := baseNumComps * highVal
  let buf := List.replicate length 0
  match lookup with
  | .stream bytes => .ok (setList buf 0 ((bytes.take length).map (· % 256)))
  | .str codes => .ok ((List.range length).map (fun i => codes.getD i 0 % 256))
  | .other => .error ()  -- FormatError: unrecognized lookup table

/-- Function `g(x)` of the Lab conversion (`fn_g` in the source). -/
def fn_g (x : ℚ) : ℚ :=
  if x ≥ 6 / 29 then x ^ 3 else (108 / 841) * (x - 4 / 29)

/-- `decode(value, high1, low2, high2)` of the Lab conversion. -/
def labLinearDecode (value high1 low2 high2 : ℚ) : ℚ :=
  low2 + value * (high2 - low2) / high1

/-- The decode-and-clamp stage of `LabCS` `convertToRgb`: when `maxVal` is
given (the buffer path), remap `Ls` to `[0, 100]`, `as` to `[amin, amax]`,
`bs` to `[bmin, bmax]`; then clamp `as` and `bs` into their ranges. -/
def labPre (cs : LabS) (lsrc asrc bsrc : ℚ) (maxVal : Option ℚ) : ℚ × ℚ × ℚ :=
  let dec := match maxVal with
    | none => (lsrc, asrc, bsrc)
    | some mv =>
        (labLinearDecode lsrc mv 0 100,
         labLinearDecode asrc mv cs.amin cs.amax,
         labLinearDecode bsrc mv cs.bmin cs.bmax)
  let as1 := if dec.2.1 > cs.amax then cs.amax
    else if dec.2.1 < cs.amin then cs.amin else dec.2.1
  let bs1 := if dec.2.2 > cs.bmax then cs.bmax
    else if dec.2.2 < cs.bmin then cs.bmin else dec.2.2
  (dec.1, as1, bs1)

/-- The XYZ stage of `LabCS` `convertToRgb`: `M = (Ls + 16) / 116`,
`L = M + as / 500`, `N = M - bs / 200`, then
`(XW * g(L), YW * g(M), ZW * g(N))`. -/
def labXYZ (cs : LabS) (lsrc asrc bsrc : ℚ) (maxVal : Option ℚ) : ℚ × ℚ × ℚ :=
  let p := labPre cs lsrc asrc bsrc maxVal
  let m := (p.1 + 16) / 116
  let l := m + p.2.1 / 500
  let n := m - p.2.2 / 200
  (cs.XW * fn_g l, cs.YW * fn_g m, cs.ZW * fn_g n)

/-- The linear-RGB stage of `LabCS` `convertToRgb`: apply the fixed D50
matrix when `ZW < 1`, else the fixed D65 matrix. -/
def labChannels (cs : LabS) (lsrc asrc bsrc : ℚ) (maxVal : Option ℚ) : ℚ × ℚ × ℚ :=
  let xyz := labXYZ cs lsrc asrc bsrc maxVal
  if cs.ZW < 1 then
    -- Assuming D50 (X=0.9642, Y=1.00, Z=0.8249)
    (xyz.1 * 3.1339 + xyz.2.1 * (-1.617) + xyz.2.2 * (-0.4906),
     xyz.1 * (-0.9785) + xyz.2.1 * 1.916 + xyz.2.2 * 0.0333,
     xyz.1 * 0.072 + xyz.2.1 * (-0.229) + xyz.2.2 * 1.4057)
  else
    -- Assuming D65 (X=0.9505, Y=1.00, Z=1.0888)
    (xyz.1 * 3.2406 + xyz.2.1 * (-1.5372) + xyz.2.2 * (-0.4986),
     xyz.1 * (-0.9689) + xyz.2.1 * 1.8758 + xyz.2.2 * 0.0415,
     xyz.1 * 0.0557 + xyz.2.1 * (-0.204) + xyz.2.2 * 1.057)

/-- The final byte `dest[k] = Math.sqrt(r) * 255` of `LabCS` `convertToRgb`,
stored into a `Uint8ClampedArray` (modelled over `ℝ`, with the integer
quantization of the container abstracted away): a negative channel makes
`Math.sqrt` return `NaN`, which the clamped store turns into `0`; otherwise
the value saturates at 255. -/
noncomputable def labStore (r : ℚ) : ℝ :=
  if r < 0 then 0 else min 255 (Real.sqrt (r : ℝ) * 255)

/-- `LabCS` `convertToRgb` end to end: the three bytes written at
`dest[destOffset .. destOffset + 2]`. -/
noncomputable def labConvertToRgb (cs : LabS) (lsrc asrc bsrc : ℚ)
    (maxVal : Option ℚ) : ℝ × ℝ × ℝ :=
  let ch := labChannels cs lsrc asrc bsrc maxVal
  (labStore ch.1, labStore ch.2.1, labStore ch.2.2)

/-- The per-sample kernel of `IndexedCS.getRgbBuffer` over a `DeviceRgbCS`
base (`indexed_cs.js` line by line: `lookupPos = src[srcOffset] * numComps`,
then `base.getRgbBuffer(lookup, lookupPos, 1, dest, destOffset, 8, alpha01)`,
which for DeviceRGB at 8 bits writes the three palette bytes unchanged),
packaged as a `VSpace` (`name = "Indexed"`, `numComps = 1`, no
passthrough). -/
def indexedRgbV (lookup : List Nat) : VSpace where
  name := "Indexed"
  numComps := 1
  isPt := fun _ => false
  item := fun src off _bits =>
    let v := src.getD off 0
    (lookup.getD (v * 3) 0, lookup.getD (v * 3 + 1) 0, lookup.getD (v * 3 + 2) 0)

theorem setList_length (vals dest : List Nat) (off : Nat) :
    (setList dest off vals).length = dest.length := by
  induction vals generalizing dest off with
  | nil => rfl
  | cons v vs ih =>
    show (setList (dest.set off (clampStore v)) (off + 1) vs).length = dest.length
    rw [ih, List.length_set]

theorem setList_getD (vals dest : List Nat) (off j : Nat) :
    (setList dest off vals).getD j 0 =
      if off ≤ j ∧ j < off + vals.length ∧ j < dest.length
      then clampStore (vals.getD (j - off) 0)
      else dest.getD j 0 := by
  induction vals generalizing dest off with
  | nil =>
    rw [if_neg (by rintro ⟨h1, h2, h3⟩; simp at h2; omega)]
    rfl
  | cons v vs ih =>
    show (setList (dest.set off (clampStore v)) (off + 1) vs).getD j 0 = _
    rw [ih]
    simp only [List.length_set, List.length_cons]
    by_cases h0 : off = j
    · subst h0
      rw [if_neg (by omega)]
      rw [getD_set]
      by_cases hl : off < dest.length
      · rw [if_pos ⟨rfl, hl⟩, if_pos ⟨le_refl _, by omega, hl⟩]
        simp [clampStore]
      · rw [if_neg (fun h => hl h.2), if_neg (fun h => hl h.2.2)]
    · by_cases hcond : off + 1 ≤ j ∧ j < off + 1 + vs.length ∧ j < dest.length
      · rw [if_pos hcond, if_pos ⟨by omega, by omega, hcond.2.2⟩]
        have hd : j - off = (j - (off + 1)) + 1 := by omega
        rw [hd]
        rfl
      · rw [if_neg hcond, if_neg (fun h => hcond ⟨by omega, by omega, h.2.2⟩), getD_set,
          if_neg (fun h => h0 h.1)]

/-- C3, refuted as stated for counts past the 32-bit range of `| 0`: for
DeviceRGB at `count = 715827883`, `alpha01 = 0`, the pre-`| 0` value is
`count * 3 = 2147483649 ≥ 2^31`, so `ToInt32` wraps it to `-2147483647`,
which is not `count * (3 + alpha01)`. -/
theorem C3_counterexample :
    getOutputLengthQ CSpace.deviceRgb
        (((715827883 : Nat) : ℚ) * (numCompsCS CSpace.deviceRgb : ℚ)) 0 = -2147483647 ∧
    ((715827883 : Nat) : ℚ) * (3 + 0) ≠ -2147483647 := by
  constructor
  · show ((jsToInt32 (((715827883 : Nat) : ℚ) * (((3 : Nat) : ℕ) : ℚ) * (3 + 0) / 3) : ℤ) : ℚ) =
      -2147483647
    have harg : ((715827883 : Nat) : ℚ) * (((3 : Nat) : ℕ) : ℚ) * (3 + 0) / 3 =
        ((2147483649 : Nat) : ℚ) := by
      push_cast
      norm_num
    rw [harg]
    have hv : jsToInt32 ((2147483649 : Nat) : ℚ) = -2147483647 := by
      unfold jsToInt32
      rw [if_pos (by positivity), Int.floor_natCast]
      decide
    rw [hv]
    norm_num
  · push_cast
    norm_num

/-- C3 amended: for every concrete color space (the Alternate count being at
least 1, as the data model prescribes: 1 for Separation, the number of
colorant names for DeviceN), every `alpha01 ∈ {0, 1}`, and every `count ≥ 0`
with `count * (3 + alpha01) < 2^31` — so the 32-bit `| 0` in the
DeviceRGB/CalRGB/Lab/DeviceCMYK cases does not wrap —
`getOutputLength(count * numComps, alpha01) = count * (3 + alpha01)`;
Indexed and Alternate forward through their base space and satisfy this
transitively for every base space.  (`getOutputLength` does not consult the
bits-per-component, so the claim's quantification over
`bits ∈ {1, 2, 4, 8, 16}` is vacuous.) -/
theorem C3_getOutputLength : ∀ (s : CSpace), wfCS s = true →
    ∀ (count : Nat) (alpha01 : ℚ), alpha01 = 0 ∨ alpha01 = 1 →
    (count : ℚ) * (3 + alpha01) < 2 ^ 31 →
    getOutputLengthQ s ((count : ℚ) * (numCompsCS s : ℚ)) alpha01 =
      (count : ℚ) * (3 + alpha01) := by
  have htr : ∀ (count : Nat) (alpha01 : ℚ), alpha01 = 0 ∨ alpha01 = 1 →
      (count : ℚ) * (3 + alpha01) < 2 ^ 31 →
      ((jsToInt32 ((count : ℚ) * (3 + alpha01)) : ℤ) : ℚ) = (count : ℚ) * (3 + alpha01) := by
    rintro count alpha01 (rfl | rfl) hb
    · have h : (count : ℚ) * (3 + 0) = ((count * 3 : Nat) : ℚ) := by push_cast; ring
      rw [h] at hb ⊢
      have hlt : count * 3 < 2 ^ 31 := by exact_mod_cast hb
      rw [jsToInt32_coe_nat _ hlt, Int.cast_natCast]
    · have h : (count : ℚ) * (3 + 1) = ((count * 4 : Nat) : ℚ) := by push_cast; ring
      rw [h] at hb ⊢
      have hlt : count * 4 < 2 ^ 31 := by exact_mod_cast hb
      rw [jsToInt32_coe_nat _ hlt, Int.cast_natCast]
  intro s
  induction s with
  | deviceGray =>
    intro _ count alpha01 _ _
    show ((count : ℚ) * ((1 : Nat) : ℚ)) * (3 + alpha01) = (count : ℚ) * (3 + alpha01)
    push_cast
    ring
  | deviceRgb =>
    intro _ count alpha01 ha hb
    show ((jsToInt32 ((count : ℚ) * ((3 : Nat) : ℚ) * (3 + alpha01) / 3) : ℤ) : ℚ) = _
    have h : (count : ℚ) * ((3 : Nat) : ℚ) * (3 + alpha01) / 3 = (count : ℚ) * (3 + alpha01) := by
      push_cast
      ring
    rw [h, htr count alpha01 ha hb]
  | deviceCmyk =>
    intro _ count alpha01 ha hb
    show ((jsToInt32 ((count : ℚ) * ((4 : Nat) : ℚ) / 4 * (3 + alpha01)) : ℤ) : ℚ) = _
    have h : (count : ℚ) * ((4 : Nat) : ℚ) / 4 * (3 + alpha01) = (count : ℚ) * (3 + alpha01) := by
      push_cast
      ring
    rw [h, htr count alpha01 ha hb]
  | calGray =>
    intro _ count alpha01 _ _
    show ((count : ℚ) * ((1 : Nat) : ℚ)) * (3 + alpha01) = (count : ℚ) * (3 + alpha01)
    push_cast
    ring
  | calRgb =>
    intro _ count alpha01 ha hb
    show ((jsToInt32 ((count : ℚ) * ((3 : Nat) : ℚ) * (3 + alpha01) / 3) : ℤ) : ℚ) = _
    have h : (count : ℚ) * ((3 : Nat) : ℚ) * (3 + alpha01) / 3 = (count : ℚ) * (3 + alpha01) := by
      push_cast
      ring
    rw [h, htr count alpha01 ha hb]
  | lab =>
    intro _ count alpha01 ha hb
    show ((jsToInt32 ((count : ℚ) * ((3 : Nat) : ℚ) * (3 + alpha01) / 3) : ℤ) : ℚ) = _
    have h : (count : ℚ) * ((3 : Nat) : ℚ) * (3 + alpha01) / 3 = (count : ℚ) * (3 + alpha01) := by
      push_cast
      ring
    rw [h, htr count alpha01 ha hb]
  | indexed base ih =>
    intro hwf count alpha01 ha hb
    have hbase : wfCS base = true := by simpa [wfCS] using hwf
    show getOutputLengthQ base ((count : ℚ) * ((1 : Nat) : ℚ) * (numCompsCS base : ℚ)) alpha01 = _
    have h : (count : ℚ) * ((1 : Nat) : ℚ) * (numCompsCS base : ℚ) =
        (count : ℚ) * (numCompsCS base : ℚ) := by
      push_cast
      ring
    rw [h]
    exact ih hbase count alpha01 ha hb
  | alternate n base ih =>
    intro hwf count alpha01 ha hb
    have hwf' : 1 ≤ n ∧ wfCS base = true := by simpa [wfCS] using hwf
    have hn : ((n : ℚ)) ≠ 0 := by
      have : 0 < n := hwf'.1
      positivity
    show getOutputLengthQ base ((count : ℚ) * (n : ℚ) * (numCompsCS base : ℚ) / (n : ℚ)) alpha01 = _
    have h : (count : ℚ) * (n : ℚ) * (numCompsCS base : ℚ) / (n : ℚ) =
        (count : ℚ) * (numCompsCS base : ℚ) := by
      field_simp
      ring
    rw [h]
    exact ih hwf'.2 count alpha01 ha hb

theorem C3_getOutputLength_witness :
    wfCS (CSpace.indexed (CSpace.alternate 2 CSpace.deviceCmyk)) = true ∧
    ((5 : Nat) : ℚ) * (3 + 1) < 2 ^ 31 ∧
    getOutputLengthQ (CSpace.indexed (CSpace.alternate 2 CSpace.deviceCmyk))
        ((5 : Nat) * (numCompsCS (CSpace.indexed (CSpace.alternate 2 CSpace.deviceCmyk)) : ℚ)) 1 =
      ((5 : Nat) : ℚ) * (3 + 1) :=
  ⟨by decide, by norm_num, C3_getOutputLength _ (by decide) 5 1 (Or.inr rfl) (by norm_num)⟩

/-- C4: during a by-reference cache probe with a by-ref miss,
`ColorSpace.getCached` re-throws a `MissingDataException` raised by
`xref.fetch`, swallows any other exception from that fetch and continues to
the by-name step (where the key, still a reference, yields null), and on a
successful fetch consults the by-name cache exactly when the fetched value
is a name, returning null when neither lookup hits. -/
theorem C4_getCached_probe (fetch : Nat → Except FetchErr PObj)
    (byRef : Nat → Option Nat) (byName : String → Option Nat) (r : Nat)
    (hmiss : byRef r = none) :
    (fetch r = .error .missingData →
      getCached fetch byRef byName (.ref r) = .error .missingData) ∧
    (fetch r = .error .otherErr →
      getCached fetch byRef byName (.ref r) = .ok none) ∧
    (∀ v, fetch r = .ok v →
      getCached fetch byRef byName (.ref r) =
        .ok (match v with | .name s => byName s | _ => none)) := by
  refine ⟨fun hf => ?_, fun hf => ?_, fun v hf => ?_⟩ <;>
    simp [getCached, hmiss, hf]

theorem C4_getCached_probe_witness :
    ((fun _ : Nat => (none : Option Nat)) 0 = none) ∧
    getCached (fun _ => .error .missingData) (fun _ => none) (fun _ => none)
        (.ref 0) = .error .missingData ∧
    getCached (fun _ => .error .otherErr) (fun _ => none) (fun _ => none)
        (.ref 0) = .ok none :=
  ⟨rfl,
   (C4_getCached_probe (fun _ => .error .missingData) (fun _ => none) (fun _ => none) 0 rfl).1 rfl,
   (C4_getCached_probe (fun _ => .error .otherErr) (fun _ => none) (fun _ => none) 0 rfl).2.1 rfl⟩

/-- C5: `isPassthrough(bits)` is true exactly for DeviceRGB at `bits == 8`
(every other space inherits the base class`s `false`), and
`DeviceRgbCS.getRgbBuffer` with `bits = 8` and `alpha01 = 0` copies the
input bytes unchanged: for every count `n`,
`dest[destOffset .. destOffset + 3n)` equals
`src[srcOffset .. srcOffset + 3n)` (given byte-valued sources that fit in
both buffers). -/
theorem C5_deviceRgb_passthrough :
    (∀ (s : CSpace) (bits : Nat),
      isPassthroughCS s bits = true ↔ s = CSpace.deviceRgb ∧ bits = 8) ∧
    (∀ (src : List Nat) (srcOffset n : Nat) (dest : List Nat) (destOffset : Nat),
      (∀ i, src.getD i 0 ≤ 255) →
      srcOffset + n * 3 ≤ src.length →
      destOffset + n * 3 ≤ dest.length →
      ∀ i, i < n * 3 →
        (deviceRgbGetRgbBuffer src srcOffset n dest destOffset 8 0).getD (destOffset + i) 0 =
          src.getD (srcOffset + i) 0) := by
  constructor
  · intro s bits
    cases s <;> simp [isPassthroughCS]
  · intro src srcOffset n dest destOffset hbyte hsrc hdest i hi
    have hbranch : deviceRgbGetRgbBuffer src srcOffset n dest destOffset 8 0 =
        setList dest destOffset ((src.drop srcOffset).take (n * 3)) := by
      simp [deviceRgbGetRgbBuffer]
    rw [hbranch, setList_getD]
    have hlen : ((src.drop srcOffset).take (n * 3)).length = n * 3 := by
      simp only [List.length_take, List.length_drop]
      omega
    rw [if_pos ⟨by omega, by omega, by omega⟩]
    have hsub : destOffset + i - destOffset = i := by omega
    rw [hsub]
    have hval : ((src.drop srcOffset).take (n * 3)).getD i 0 = src.getD (srcOffset + i) 0 := by
      simp only [List.getD_eq_getElem?_getD, List.getElem?_take, if_pos hi, List.getElem?_drop]
    rw [hval, clampStore, min_eq_left (hbyte _)]

theorem C5_deviceRgb_passthrough_witness :
    ((∀ i, [10, 20, 30].getD i 0 ≤ 255) ∧ 0 + 1 * 3 ≤ [10, 20, 30].length ∧
      0 + 1 * 3 ≤ [0, 0, 0, 7].length ∧ 0 < 1 * 3) ∧
    (deviceRgbGetRgbBuffer [10, 20, 30] 0 1 [0, 0, 0, 7] 0 8 0).getD (0 + 0) 0 =
      [10, 20, 30].getD (0 + 0) 0 :=
  ⟨⟨fun i => by
      match i with
      | 0 => decide
      | 1 => decide
      | 2 => decide
      | (k + 3) => simp [List.getD],
    by decide, by decide, by decide⟩,
   C5_deviceRgb_passthrough.2 [10, 20, 30] 0 1 [0, 0, 0, 7] 0
     (fun i => by
       match i with
       | 0 => decide
       | 1 => decide
       | 2 => decide
       | (k + 3) => simp [List.getD])
     (by decide) (by decide) 0 (by decide)⟩

/-- C2, refuted as stated: at `decodeMap = [1, 2]`, `bpc = 8` the map is a
length-2 array different from `[0, (1 << 8) - 1] = [0, 255]`, so the claim
("returns true unless the decode map is a length-2 array equal to
`[0, (1 << bpc) - 1]`") demands `true`, but `IndexedCS.isDefaultDecode`
returns `false`. -/
theorem C2_counterexample :
    (jsShl1 (8 : ℚ).num.toNat - 1 = (255 : ℤ)) ∧
    (some [(1 : ℚ), 2] ≠ some [(0 : ℚ), 255]) ∧
    indexedIsDefaultDecode (some [1, 2]) 8 = false := by
  refine ⟨by decide, by decide, by decide⟩

/-- C2 amended: `IndexedCS.isDefaultDecode(decodeMap, bpc)` returns true
when the decode map is not an array; warns and returns true when the map
length is not 2 or `bpc` is not a positive integer; and otherwise returns
false exactly when the length-2 map differs from `[0, (1 << bpc) - 1]`
(equivalently, it returns true unless the map is a length-2 array, with a
positive-integer `bpc`, that is NOT equal to `[0, (1 << bpc) - 1]`). -/
theorem C2_isDefaultDecode_amended (m : List ℚ) (bpc : ℚ) :
    (indexedIsDefaultDecode none bpc = true) ∧
    (m.length ≠ 2 → indexedIsDefaultDecode (some m) bpc = true) ∧
    (¬(jsIsInteger bpc = true ∧ 1 ≤ bpc) → indexedIsDefaultDecode (some m) bpc = true) ∧
    (m.length = 2 → jsIsInteger bpc = true → 1 ≤ bpc →
      (indexedIsDefaultDecode (some m) bpc = false ↔
        ¬(m.getD 0 0 = 0 ∧ m.getD 1 0 = ((jsShl1 bpc.num.toNat : ℤ) : ℚ) - 1))) := by
  refine ⟨rfl, fun h => ?_, fun h => ?_, fun h2 hint hge => ?_⟩
  · simp [indexedIsDefaultDecode, h]
  · rcases not_and_or.mp h with h1 | h1
    · have h1' : jsIsInteger bpc = false := by simpa using h1
      by_cases hl : m.length = 2
      · simp [indexedIsDefaultDecode, hl, h1']
      · simp [indexedIsDefaultDecode, hl]
    · have h1' : bpc < 1 := lt_of_not_le h1
      by_cases hl : m.length = 2
      · simp [indexedIsDefaultDecode, hl, h1']
      · simp [indexedIsDefaultDecode, hl]
  · have hlt : ¬(bpc < 1) := not_lt.mpr hge
    simp [indexedIsDefaultDecode, h2, hint, hlt]

theorem C2_isDefaultDecode_amended_witness :
    ([(0 : ℚ), 255].length = 2) ∧ (jsIsInteger (8 : ℚ) = true) ∧ ((1 : ℚ) ≤ 8) ∧
    (indexedIsDefaultDecode (some [(0 : ℚ), 255]) 8 = false ↔
      ¬([(0 : ℚ), 255].getD 0 0 = 0 ∧
        [(0 : ℚ), 255].getD 1 0 = ((jsShl1 (8 : ℚ).num.toNat : ℤ) : ℚ) - 1)) :=
  ⟨by decide, by decide, by decide,
   (C2_isDefaultDecode_amended [(0 : ℚ), 255] 8).2.2.2 (by decide) (by decide) (by decide)⟩

/-- C8: constructing CalGray, CalRGB, or Lab throws `FormatError` exactly
when the whitepoint is missing or has invalid components
(`YW != 1`, `XW < 0`, or `ZW < 0`); a blackpoint with any negative component
does not fail construction — it is logged at `info`, replaced with the
default `(0, 0, 0)`, and the space is still constructed. -/
theorem C8_ctor_validation :
    (∀ bp g, mkCalGray none bp g = .error ()) ∧
    (∀ xw yw zw bp g,
      mkCalGray (some (xw, yw, zw)) bp g = .error () ↔ (xw < 0 ∨ zw < 0 ∨ yw ≠ 1)) ∧
    (∀ xw yw zw xb yb zb g, ¬(xw < 0 ∨ zw < 0 ∨ yw ≠ 1) → (xb < 0 ∨ yb < 0 ∨ zb < 0) →
      ∃ st, mkCalGray (some (xw, yw, zw)) (some (xb, yb, zb)) g = .ok st ∧
        st.XB = 0 ∧ st.YB = 0 ∧ st.ZB = 0) ∧
    (∀ bp g m, mkCalRGB none bp g m = .error ()) ∧
    (∀ xw yw zw bp g m,
      mkCalRGB (some (xw, yw, zw)) bp g m = .error () ↔ (xw < 0 ∨ zw < 0 ∨ yw ≠ 1)) ∧
    (∀ xw yw zw xb yb zb g m, ¬(xw < 0 ∨ zw < 0 ∨ yw ≠ 1) → (xb < 0 ∨ yb < 0 ∨ zb < 0) →
      ∃ st, mkCalRGB (some (xw, yw, zw)) (some (xb, yb, zb)) g m = .ok st ∧
        st.blackPoint = (0, 0, 0)) ∧
    (∀ bp rg, mkLab none bp rg = .error ()) ∧
    (∀ xw yw zw bp rg,
      mkLab (some (xw, yw, zw)) bp rg = .error () ↔ (xw < 0 ∨ zw < 0 ∨ yw ≠ 1)) ∧
    (∀ xw yw zw xb yb zb rg, ¬(xw < 0 ∨ zw < 0 ∨ yw ≠ 1) → (xb < 0 ∨ yb < 0 ∨ zb < 0) →
      ∃ st, mkLab (some (xw, yw, zw)) (some (xb, yb, zb)) rg = .ok st ∧
        st.XB = 0 ∧ st.YB = 0 ∧ st.ZB = 0) := by
  refine ⟨fun bp g => rfl, fun xw yw zw bp g => ?_, fun xw yw zw xb yb zb g hwp hbp => ?_,
    fun bp g m => rfl, fun xw yw zw bp g m => ?_, fun xw yw zw xb yb zb g m hwp hbp => ?_,
    fun bp rg => rfl, fun xw yw zw bp rg => ?_, fun xw yw zw xb yb zb rg hwp hbp => ?_⟩
  · simp only [mkCalGray]
    split_ifs with h
    · simp [h]
    · simp [h]
  · simp only [mkCalGray, Option.getD_some, if_neg hwp, if_pos hbp]
    exact ⟨_, rfl, rfl, rfl, rfl⟩
  · simp only [mkCalRGB]
    split_ifs with h
    · simp [h]
    · simp [h]
  · simp only [mkCalRGB, Option.getD_some, if_neg hwp, if_pos hbp]
    exact ⟨_, rfl, rfl⟩
  · simp only [mkLab]
    split_ifs with h
    · simp [h]
    · simp [h]
  · simp only [mkLab, Option.getD_some, if_neg hwp, if_pos hbp]
    exact ⟨_, rfl, rfl, rfl, rfl⟩

theorem C8_ctor_validation_witness :
    (¬((1 : ℚ) < 0 ∨ (1 : ℚ) < 0 ∨ (1 : ℚ) ≠ 1)) ∧ ((-2 : ℚ) < 0 ∨ (0 : ℚ) < 0 ∨ (0 : ℚ) < 0) ∧
    (∃ st, mkCalGray (some (1, 1, 1)) (some (-2, 0, 0)) (some 1) = .ok st ∧
      st.XB = 0 ∧ st.YB = 0 ∧ st.ZB = 0) ∧
    (mkLab none (some (0, 0, 0)) none = .error ()) :=
  ⟨by decide, by decide,
   C8_ctor_validation.2.2.1 1 1 1 (-2) 0 0 (some 1) (by decide) (by decide),
   C8_ctor_validation.2.2.2.2.2.2.1 (some (0, 0, 0)) none⟩

/-- C10: `IndexedCS` construction zero-fills missing palette data: the
palette buffer has length `base.numComps * highVal` and is zero-initialized,
so a string lookup shorter than that length (each missing `charCodeAt`
masked with `0xff` yields 0) or a stream yielding fewer bytes leaves every
palette byte past the supplied data equal to 0 (bytes within the supplied
data are the data, masked to a byte). -/
theorem C10_indexed_zero_fill (n hv : Nat) (bytes codes : List Nat) :
    (∃ l, mkIndexedLookup n hv (.stream bytes) = .ok l ∧ l.length = n * hv ∧
      (∀ i, i < n * hv → bytes.length ≤ i → l.getD i 0 = 0) ∧
      (∀ i, i < n * hv → i < bytes.length → l.getD i 0 = bytes.getD i 0 % 256)) ∧
    (∃ l, mkIndexedLookup n hv (.str codes) = .ok l ∧ l.length = n * hv ∧
      (∀ i, i < n * hv → codes.length ≤ i → l.getD i 0 = 0) ∧
      (∀ i, i < n * hv → i < codes.length → l.getD i 0 = codes.getD i 0 % 256)) := by
  constructor
  · refine ⟨_, rfl, ?_, ?_, ?_⟩
    · rw [setList_length, List.length_replicate]
    · intro i hi hpast
      rw [setList_getD, if_neg ?_]
      · rw [List.getD_eq_getElem?_getD, List.getElem?_replicate, if_pos hi]
        rfl
      · rintro ⟨-, hlt, -⟩
        simp only [Nat.zero_add, List.length_map, List.length_take] at hlt
        omega
    · intro i hi hin
      rw [setList_getD,
        if_pos ⟨Nat.zero_le _,
          by simp only [Nat.zero_add, List.length_map, List.length_take]; omega,
          by rw [List.length_replicate]; exact hi⟩]
      have hval : (((bytes.take (n * hv)).map (· % 256)).getD (i - 0) 0) =
          bytes.getD i 0 % 256 := by
        simp [List.getD_eq_getElem?_getD, List.getElem?_map, List.getElem?_take, hi,
          List.getElem?_eq_getElem hin]
      rw [hval, clampStore, min_eq_left (by omega)]
  · refine ⟨_, rfl, ?_, ?_, ?_⟩
    · rw [List.length_map, List.length_range]
    · intro i hi hpast
      rw [List.getD_eq_getElem?_getD, List.getElem?_map, List.getElem?_range hi]
      simp [List.getD_eq_getElem?_getD, List.getElem?_eq_none hpast]
    · intro i hi hin
      rw [List.getD_eq_getElem?_getD, List.getElem?_map, List.getElem?_range hi]
      rfl

theorem C10_indexed_zero_fill_witness :
    (mkIndexedLookup 3 2 (.stream [300, 2]) = .ok [44, 2, 0, 0, 0, 0]) ∧
    (mkIndexedLookup 3 2 (.str [7]) = .ok [7, 0, 0, 0, 0, 0]) ∧
    (∃ l, mkIndexedLookup 3 2 (.stream [300, 2]) = .ok l ∧ l.length = 3 * 2 ∧
      (∀ i, i < 3 * 2 → [300, 2].length ≤ i → l.getD i 0 = 0) ∧
      (∀ i, i < 3 * 2 → i < [300, 2].length → l.getD i 0 = [300, 2].getD i 0 % 256)) :=
  ⟨by rfl, by rfl, (C10_indexed_zero_fill 3 2 [300, 2] [7]).1⟩

/-- C7: in `LabCS` `convertToRgb` the XYZ-to-RGB matrix is chosen by the
whitepoint's Z component — `ZW < 1` selects the fixed D50 matrix, otherwise
the fixed D65 matrix — and each final RGB byte is `Math.sqrt(channel) * 255`
as stored by the clamped destination container: a negative channel
(`Math.sqrt` returns `NaN`) stores 0, and a channel in `[0, 1]` stores
exactly `sqrt(channel) * 255`. -/
theorem C7_lab_matrix_branch (cs : LabS) (lsrc asrc bsrc : ℚ) (maxVal : Option ℚ) :
    (cs.ZW < 1 →
      labChannels cs lsrc asrc bsrc maxVal =
        ((labXYZ cs lsrc asrc bsrc maxVal).1 * 3.1339 +
           (labXYZ cs lsrc asrc bsrc maxVal).2.1 * (-1.617) +
           (labXYZ cs lsrc asrc bsrc maxVal).2.2 * (-0.4906),
         (labXYZ cs lsrc asrc bsrc maxVal).1 * (-0.9785) +
           (labXYZ cs lsrc asrc bsrc maxVal).2.1 * 1.916 +
           (labXYZ cs lsrc asrc bsrc maxVal).2.2 * 0.0333,
         (labXYZ cs lsrc asrc bsrc maxVal).1 * 0.072 +
           (labXYZ cs lsrc asrc bsrc maxVal).2.1 * (-0.229) +
           (labXYZ cs lsrc asrc bsrc maxVal).2.2 * 1.4057)) ∧
    (1 ≤ cs.ZW →
      labChannels cs lsrc asrc bsrc maxVal =
        ((labXYZ cs lsrc asrc bsrc maxVal).1 * 3.2406 +
           (labXYZ cs lsrc asrc bsrc maxVal).2.1 * (-1.5372) +
           (labXYZ cs lsrc asrc bsrc maxVal).2.2 * (-0.4986),
         (labXYZ cs lsrc asrc bsrc maxVal).1 * (-0.9689) +
           (labXYZ cs lsrc asrc bsrc maxVal).2.1 * 1.8758 +
           (labXYZ cs lsrc asrc bsrc maxVal).2.2 * 0.0415,
         (labXYZ cs lsrc asrc bsrc maxVal).1 * 0.0557 +
           (labXYZ cs lsrc asrc bsrc maxVal).2.1 * (-0.204) +
           (labXYZ cs lsrc asrc bsrc maxVal).2.2 * 1.057)) ∧
    (labConvertToRgb cs lsrc asrc bsrc maxVal =
      (labStore (labChannels cs lsrc asrc bsrc maxVal).1,
       labStore (labChannels cs lsrc asrc bsrc maxVal).2.1,
       labStore (labChannels cs lsrc asrc bsrc maxVal).2.2)) ∧
    (∀ r : ℚ, r < 0 → labStore r = 0) ∧
    (∀ r : ℚ, 0 ≤ r → r ≤ 1 → labStore r = Real.sqrt (r : ℝ) * 255) := by
  refine ⟨fun hz => ?_, fun hz => ?_, rfl, fun r hr => ?_, fun r hr0 hr1 => ?_⟩
  · rw [labChannels, if_pos hz]
  · rw [labChannels, if_neg (not_lt.mpr hz)]
  · rw [labStore, if_pos hr]
  · rw [labStore, if_neg (not_lt.mpr hr0)]
    refine min_eq_right ?_
    have hs : Real.sqrt (r : ℝ) ≤ 1 := Real.sqrt_le_one.mpr (by exact_mod_cast hr1)
    nlinarith [Real.sqrt_nonneg (r : ℝ)]

theorem C7_lab_matrix_branch_witness :
    ((LabS.mk 0.9642 1 0.8249 (-100) 100 (-100) 100 0 0 0).ZW < 1) ∧
    (labChannels (LabS.mk 0.9642 1 0.8249 (-100) 100 (-100) 100 0 0 0) 5 6 7 none =
      ((labXYZ (LabS.mk 0.9642 1 0.8249 (-100) 100 (-100) 100 0 0 0) 5 6 7 none).1 * 3.1339 +
         (labXYZ (LabS.mk 0.9642 1 0.8249 (-100) 100 (-100) 100 0 0 0) 5 6 7 none).2.1 * (-1.617) +
         (labXYZ (LabS.mk 0.9642 1 0.8249 (-100) 100 (-100) 100 0 0 0) 5 6 7 none).2.2 * (-0.4906),
       (labXYZ (LabS.mk 0.9642 1 0.8249 (-100) 100 (-100) 100 0 0 0) 5 6 7 none).1 * (-0.9785) +
         (labXYZ (LabS.mk 0.9642 1 0.8249 (-100) 100 (-100) 100 0 0 0) 5 6 7 none).2.1 * 1.916 +
         (labXYZ (LabS.mk 0.9642 1 0.8249 (-100) 100 (-100) 100 0 0 0) 5 6 7 none).2.2 * 0.0333,
       (labXYZ (LabS.mk 0.9642 1 0.8249 (-100) 100 (-100) 100 0 0 0) 5 6 7 none).1 * 0.072 +
         (labXYZ (LabS.mk 0.9642 1 0.8249 (-100) 100 (-100) 100 0 0 0) 5 6 7 none).2.1 * (-0.229) +
         (labXYZ (LabS.mk 0.9642 1 0.8249 (-100) 100 (-100) 100 0 0 0) 5 6 7 none).2.2 * 1.4057)) ∧
    (labChannels (LabS.mk 0.9505 1 1.0888 (-100) 100 (-100) 100 0 0 0) 5 6 7 none =
      ((labXYZ (LabS.mk 0.9505 1 1.0888 (-100) 100 (-100) 100 0 0 0) 5 6 7 none).1 * 3.2406 +
         (labXYZ (LabS.mk 0.9505 1 1.0888 (-100) 100 (-100) 100 0 0 0) 5 6 7 none).2.1 * (-1.5372) +
         (labXYZ (LabS.mk 0.9505 1 1.0888 (-100) 100 (-100) 100 0 0 0) 5 6 7 none).2.2 * (-0.4986),
       (labXYZ (LabS.mk 0.9505 1 1.0888 (-100) 100 (-100) 100 0 0 0) 5 6 7 none).1 * (-0.9689) +
         (labXYZ (LabS.mk 0.9505 1 1.0888 (-100) 100 (-100) 100 0 0 0) 5 6 7 none).2.1 * 1.8758 +
         (labXYZ (LabS.mk 0.9505 1 1.0888 (-100) 100 (-100) 100 0 0 0) 5 6 7 none).2.2 * 0.0415,
       (labXYZ (LabS.mk 0.9505 1 1.0888 (-100) 100 (-100) 100 0 0 0) 5 6 7 none).1 * 0.0557 +
         (labXYZ (LabS.mk 0.9505 1 1.0888 (-100) 100 (-100) 100 0 0 0) 5 6 7 none).2.1 * (-0.204) +
         (labXYZ (LabS.mk 0.9505 1 1.0888 (-100) 100 (-100) 100 0 0 0) 5 6 7 none).2.2 * 1.057)) ∧
    (labStore (-1) = 0) ∧
    (labStore 1 = Real.sqrt ((1 : ℚ) : ℝ) * 255) :=
  ⟨by norm_num,
   (C7_lab_matrix_branch (LabS.mk 0.9642 1 0.8249 (-100) 100 (-100) 100 0 0 0) 5 6 7 none).1
     (by norm_num),
   (C7_lab_matrix_branch (LabS.mk 0.9505 1 1.0888 (-100) 100 (-100) 100 0 0 0) 5 6 7 none).2.1
     (by norm_num),
   (C7_lab_matrix_branch (LabS.mk 0.9642 1 0.8249 (-100) 100 (-100) 100 0 0 0) 5 6 7 none).2.2.2.1
     (-1) (by norm_num),
   (C7_lab_matrix_branch (LabS.mk 0.9642 1 0.8249 (-100) 100 (-100) 100 0 0 0) 5 6 7 none).2.2.2.2
     1 (by norm_num) (by norm_num)⟩

/-- C9: when `fillRgb` takes the no-resize direct path (the space is not
passthrough for `bpc` and the color-map fast-path condition does not hold),
it is exactly one `getRgbBuffer` call converting `width * actualHeight`
samples into `dest` at offset 0, and every byte of `dest` at positions
`>= width * actualHeight * (3 + alpha01)` is left unchanged — in particular
when `actualHeight < originalHeight` for a partially decoded image. -/
theorem C9_fillRgb_direct (sp : VSpace) (dest : List Nat)
    (ow oh w h aH bpc : Nat) (comps : List Nat) (alpha01 : Nat)
    (hpt : sp.isPt bpc = false)
    (hfast : (sp.numComps == 1 && decide (ow * oh > 2 ^ bpc) &&
      (sp.name != "DeviceGray") && (sp.name != "DeviceRGB")) = false)
    (hw : ow = w) (hh : oh = h) :
    fillRgbV sp dest ow oh w h aH bpc comps alpha01 =
      getRgbBufferV sp comps 0 (w * aH) dest 0 bpc alpha01 ∧
    ∀ j, w * aH * (3 + alpha01) ≤ j →
      (fillRgbV sp dest ow oh w h aH bpc comps alpha01).getD j 0 = dest.getD j 0 := by
  subst hw
  subst hh
  have heq : fillRgbV sp dest ow oh ow oh aH bpc comps alpha01 =
      getRgbBufferV sp comps 0 (ow * aH) dest 0 bpc alpha01 := by
    simp [fillRgbV, hpt, hfast]
  refine ⟨heq, fun j hj => ?_⟩
  rw [heq, getRgbBufferV]
  exact fillPixels_frame _ (by omega) _ _ _ _ _ (Or.inr (by omega))

theorem C9_fillRgb_direct_witness :
    ((indexedRgbV [9, 9, 9]).isPt 8 = false) ∧
    (((indexedRgbV [9, 9, 9]).numComps == 1 && decide (2 * 2 > 2 ^ 8) &&
      ((indexedRgbV [9, 9, 9]).name != "DeviceGray") &&
      ((indexedRgbV [9, 9, 9]).name != "DeviceRGB")) = false) ∧
    (fillRgbV (indexedRgbV [9, 9, 9]) [1, 2, 3, 4, 5, 6, 7, 8] 2 2 2 2 1 8 [0, 0, 0, 0] 1 =
      getRgbBufferV (indexedRgbV [9, 9, 9]) [0, 0, 0, 0] 0 (2 * 1) [1, 2, 3, 4, 5, 6, 7, 8] 0 8 1 ∧
    ∀ j, 2 * 1 * (3 + 1) ≤ j →
      (fillRgbV (indexedRgbV [9, 9, 9]) [1, 2, 3, 4, 5, 6, 7, 8] 2 2 2 2 1 8 [0, 0, 0, 0] 1).getD j 0 =
        [1, 2, 3, 4, 5, 6, 7, 8].getD j 0) :=
  ⟨rfl, by decide,
   C9_fillRgb_direct (indexedRgbV [9, 9, 9]) [1, 2, 3, 4, 5, 6, 7, 8] 2 2 2 2 1 8
     [0, 0, 0, 0] 1 rfl (by decide) rfl rfl⟩

theorem clampStore_clampStore (x : Nat) : clampStore (clampStore x) = clampStore x := by
  simp only [clampStore]
  omega

/-- C1 amended: for a one-component space that is not passthrough at `bpc`
and whose name is neither DeviceGray nor DeviceRGB, whose per-sample kernel
depends only on the sample value (`f`), when `fillRgb` is invoked with equal
original and target dimensions and `count > 2^bpc`, with in-range samples
and `actualHeight = originalHeight`, the color-map fast path writes exactly
the bytes the direct path (a single `getRgbBuffer` call straight into `dest`
with the same `bpc` and `alpha01`) would write. -/
theorem C1_fastPath_eq_direct (sp : VSpace) (f : Nat → Nat × Nat × Nat)
    (dest : List Nat) (ow oh w h aH bpc : Nat) (comps : List Nat) (alpha01 : Nat)
    (hitem : ∀ src off, sp.item src off bpc = f (src.getD off 0))
    (hn : sp.numComps = 1)
    (hname1 : sp.name ≠ "DeviceGray") (hname2 : sp.name ≠ "DeviceRGB")
    (hpt : sp.isPt bpc = false)
    (hcount : 2 ^ bpc < ow * oh)
    (hw : ow = w) (hh : oh = h) (haH : aH = oh)
    (hlen : ow * oh ≤ comps.length)
    (hrange : ∀ i < ow * oh, comps.getD i 0 < 2 ^ bpc) :
    fillRgbV sp dest ow oh w h aH bpc comps alpha01 =
      getRgbBufferV sp comps 0 (w * aH) dest 0 bpc alpha01 := by
  rw [haH, ← hw, ← hh]
  have hfastTrue : (sp.numComps == 1 && decide (ow * oh > 2 ^ bpc) &&
      (sp.name != "DeviceGray") && (sp.name != "DeviceRGB")) = true := by
    simp [hn, hcount, bne_iff_ne, hname1, hname2]
  have hstep3 : (3 : Nat) ≤ 3 + alpha01 := by omega
  have hred : fillRgbV sp dest ow oh ow oh oh bpc comps alpha01 =
      fillPixels (fastPix comps (getRgbBufferV sp (List.range (2 ^ bpc)) 0 (2 ^ bpc)
        (List.replicate (2 ^ bpc * 3) 0) 0 bpc 0)) (ow * oh) dest 0 (3 + alpha01) := by
    simp [fillRgbV, hpt, hfastTrue]
  set colorMap := getRgbBufferV sp (List.range (2 ^ bpc)) 0 (2 ^ bpc)
    (List.replicate (2 ^ bpc * 3) 0) 0 bpc 0 with hcm
  have hcmEntry : ∀ v c, v < 2 ^ bpc → c < 3 →
      colorMap.getD (v * 3 + c) 0 = clampStore (tsel (f v) c) := by
    intro v c hv hc
    have hbound : v * 3 + c < 2 ^ bpc * 3 := by
      have h1 : (v + 1) * 3 ≤ 2 ^ bpc * 3 := Nat.mul_le_mul_right 3 (by omega)
      omega
    rw [hcm, getRgbBufferV, fillPixels_getD 3 (le_refl 3),
      if_pos ⟨Nat.zero_le _, by omega, by omega, by rw [List.length_replicate]; omega⟩]
    have hdv : (v * 3 + c - 0) / 3 = v := by omega
    have hmc : (v * 3 + c - 0) % 3 = c := by omega
    rw [hdv, hmc, hn, hitem]
    have hr : (List.range (2 ^ bpc)).getD (0 + v) 0 = v := by
      rw [Nat.zero_add, List.getD_eq_getElem?_getD, List.getElem?_range hv]
      rfl
    rw [mul_one, hr]
  have hcm0 : ∀ v, v < 2 ^ bpc → colorMap.getD (v * 3) 0 = clampStore ((f v).1) := by
    intro v hv
    have h := hcmEntry v 0 hv (by omega)
    rw [Nat.add_zero] at h
    exact h
  have hcm1 : ∀ v, v < 2 ^ bpc → colorMap.getD (v * 3 + 1) 0 = clampStore ((f v).2.1) :=
    fun v hv => hcmEntry v 1 hv (by omega)
  have hcm2 : ∀ v, v < 2 ^ bpc → colorMap.getD (v * 3 + 2) 0 = clampStore ((f v).2.2) :=
    fun v hv => hcmEntry v 2 hv (by omega)
  rw [hred, getRgbBufferV]
  apply List.ext_getElem
  · rw [fillPixels_length, fillPixels_length]
  · intro k hk1 hk2
    rw [← List.getD_eq_getElem _ 0 hk1, ← List.getD_eq_getElem _ 0 hk2]
    rw [fillPixels_getD (3 + alpha01) hstep3, fillPixels_getD (3 + alpha01) hstep3]
    split_ifs with hcond
    · have hp : (k - 0) / (3 + alpha01) < ow * oh := by
        rw [Nat.div_lt_iff_lt_mul (by omega : 0 < 3 + alpha01)]
        omega
      have hplen : (k - 0) / (3 + alpha01) < comps.length := by omega
      have hvrange : comps.getD ((k - 0) / (3 + alpha01)) 0 < 2 ^ bpc := hrange _ hp
      have hget : comps.get? ((k - 0) / (3 + alpha01)) =
          some (comps.getD ((k - 0) / (3 + alpha01)) 0) := by
        rw [List.get?_eq_getElem?, List.getElem?_eq_getElem hplen,
          List.getD_eq_getElem _ 0 hplen]
      simp only [fastPix, hget, hn, hitem, mul_one, Nat.zero_add]
      have hc3 : (k - 0) % (3 + alpha01) < 3 := hcond.2.2.1
      have hsplit : (k - 0) % (3 + alpha01) = 0 ∨ (k - 0) % (3 + alpha01) = 1 ∨
          (k - 0) % (3 + alpha01) = 2 := by omega
      rcases hsplit with hc | hc | hc <;> rw [hc]
      · rw [show tsel (colorMap.getD (comps.getD ((k - 0) / (3 + alpha01)) 0 * 3) 0,
            colorMap.getD (comps.getD ((k - 0) / (3 + alpha01)) 0 * 3 + 1) 0,
            colorMap.getD (comps.getD ((k - 0) / (3 + alpha01)) 0 * 3 + 2) 0) 0 =
            colorMap.getD (comps.getD ((k - 0) / (3 + alpha01)) 0 * 3) 0 from rfl,
          hcm0 _ hvrange]
        exact clampStore_clampStore _
      · rw [show tsel (colorMap.getD (comps.getD ((k - 0) / (3 + alpha01)) 0 * 3) 0,
            colorMap.getD (comps.getD ((k - 0) / (3 + alpha01)) 0 * 3 + 1) 0,
            colorMap.getD (comps.getD ((k - 0) / (3 + alpha01)) 0 * 3 + 2) 0) 1 =
            colorMap.getD (comps.getD ((k - 0) / (3 + alpha01)) 0 * 3 + 1) 0 from rfl,
          hcm1 _ hvrange]
        exact clampStore_clampStore _
      · rw [show tsel (colorMap.getD (comps.getD ((k - 0) / (3 + alpha01)) 0 * 3) 0,
            colorMap.getD (comps.getD ((k - 0) / (3 + alpha01)) 0 * 3 + 1) 0,
            colorMap.getD (comps.getD ((k - 0) / (3 + alpha01)) 0 * 3 + 2) 0) 2 =
            colorMap.getD (comps.getD ((k - 0) / (3 + alpha01)) 0 * 3 + 2) 0 from rfl,
          hcm2 _ hvrange]
        exact clampStore_clampStore _
    · rfl

/-- The per-output-pixel source-index computation of `resizeRgbImage` (the
value of `oldIndex` for output pixel `p = y * w2 + x`) together with the
three source bytes it copies; `resizeRgbImage` is `fillPixels` over this. -/
def resizePix (src : List Nat) (w1 h1 w2 h2 p : Nat) : Nat × Nat × Nat :=
  let py := (⌊(((p / w2 : Nat) : ℚ) * (h1 : ℚ) / (h2 : ℚ))⌋).toNat * (w1 * 3)
  let oldIndex := py + ((List.range w2).map
    (fun (i : Nat) => ((⌊((i : ℚ) * (w1 : ℚ) / (w2 : ℚ))⌋).toNat * 3) % 65536)).getD (p % w2) 0
  (src.getD oldIndex 0, src.getD (oldIndex + 1) 0, src.getD (oldIndex + 2) 0)

theorem resizeRgbImage_norm (src dest : List Nat) (w1 h1 w2 h2 alpha01 : Nat)
    (ha : alpha01 = 0 ∨ alpha01 = 1) :
    resizeRgbImage src dest w1 h1 w2 h2 alpha01 =
      fillPixels (fun p => resizePix src w1 h1 w2 h2 p) (h2 * w2) dest 0 (3 + alpha01) := by
  rcases ha with rfl | rfl <;> rfl

theorem resizePix_eq_dims (src : List Nat) (w h p : Nat) (hw : w ≤ 21846)
    (hp : p < h * w) :
    resizePix src w h w h p =
      (src.getD (3 * p) 0, src.getD (3 * p + 1) 0, src.getD (3 * p + 2) 0) := by
  have hw0 : 0 < w := by
    rcases Nat.eq_zero_or_pos w with hz | hz
    · subst hz
      omega
    · exact hz
  have hh0 : 0 < h := by
    rcases Nat.eq_zero_or_pos h with hz | hz
    · subst hz
      omega
    · exact hz
  have hwq : ((w : Nat) : ℚ) ≠ 0 := Nat.cast_ne_zero.mpr (by omega)
  have hhq : ((h : Nat) : ℚ) ≠ 0 := Nat.cast_ne_zero.mpr (by omega)
  have hx : p % w < w := Nat.mod_lt _ hw0
  have hxs : ((List.range w).map
      (fun (i : Nat) => ((⌊((i : ℚ) * (w : ℚ) / (w : ℚ))⌋).toNat * 3) % 65536)).getD (p % w) 0 =
      (p % w) * 3 := by
    rw [List.getD_eq_getElem?_getD, List.getElem?_map, List.getElem?_range hx]
    have hq1 : (((p % w : Nat) : ℚ)) * (w : ℚ) / (w : ℚ) = ((p % w : Nat) : ℚ) := by
      rw [mul_div_assoc, div_self hwq, mul_one]
    show ((⌊(((p % w : Nat) : ℚ)) * (w : ℚ) / (w : ℚ)⌋).toNat * 3) % 65536 = (p % w) * 3
    rw [hq1, Int.floor_natCast, Int.toNat_natCast]
    exact Nat.mod_eq_of_lt (by omega)
  have hpy : (⌊(((p / w : Nat) : ℚ) * (h : ℚ) / (h : ℚ))⌋).toNat * (w * 3) =
      (p / w) * (w * 3) := by
    have hq2 : (((p / w : Nat) : ℚ)) * (h : ℚ) / (h : ℚ) = ((p / w : Nat) : ℚ) := by
      rw [mul_div_assoc, div_self hhq, mul_one]
    rw [hq2, Int.floor_natCast, Int.toNat_natCast]
  have hsum : (p / w) * (w * 3) + (p % w) * 3 = 3 * p := by
    have hdm := Nat.div_add_mod p w
    have hr1 : (p / w) * (w * 3) = 3 * (w * (p / w)) := by ring
    have hr2 : (p % w) * 3 = 3 * (p % w) := by ring
    omega
  simp only [resizePix, hxs, hpy, hsum]

/-- C6 amended: for every source buffer of bytes and every
`alpha01 ∈ {0, 1}`, `resizeRgbImage` with equal source and destination
dimensions `(w1, h1) == (w2, h2)` — provided `w2 ≤ 21846`, so that the
`Uint16Array` entry `xScaled[i] = 3 * i` does not wrap modulo `2^16` — is
the identity modulo `alpha01` spacing: each 3-byte RGB triple of `src` is
copied unchanged to `dest` in order, and `alpha01` destination bytes after
each triple (and everything past the image) are left unchanged. -/
theorem C6_resize_identity (src dest : List Nat) (w h alpha01 : Nat)
    (ha : alpha01 = 0 ∨ alpha01 = 1) (hw : w ≤ 21846)
    (hsrc : ∀ i, src.getD i 0 ≤ 255)
    (hdest : h * w * (3 + alpha01) ≤ dest.length) :
    (∀ p c, p < h * w → c < 3 →
      (resizeRgbImage src dest w h w h alpha01).getD (p * (3 + alpha01) + c) 0 =
        src.getD (3 * p + c) 0) ∧
    (∀ j, h * w * (3 + alpha01) ≤ j ∨ 3 ≤ j % (3 + alpha01) →
      (resizeRgbImage src dest w h w h alpha01).getD j 0 = dest.getD j 0) := by
  have hstep : (3 : Nat) ≤ 3 + alpha01 := by omega
  rw [resizeRgbImage_norm src dest w h w h alpha01 ha]
  constructor
  · intro p c hp hc
    rw [fillPixels_getD _ hstep]
    have hexp : (p + 1) * (3 + alpha01) = p * (3 + alpha01) + (3 + alpha01) := by ring
    have hble : (p + 1) * (3 + alpha01) ≤ (h * w) * (3 + alpha01) :=
      Nat.mul_le_mul_right _ (by omega)
    have hcomm : p * (3 + alpha01) + c - 0 = c + (3 + alpha01) * p := by
      rw [Nat.sub_zero]
      ring
    have hmodEq : (p * (3 + alpha01) + c - 0) % (3 + alpha01) = c := by
      rw [hcomm, Nat.add_mul_mod_self_left]
      exact Nat.mod_eq_of_lt (by omega)
    have hdivEq : (p * (3 + alpha01) + c - 0) / (3 + alpha01) = p := by
      rw [hcomm, Nat.add_mul_div_left _ _ (by omega : 0 < 3 + alpha01),
        Nat.div_eq_of_lt (by omega : c < 3 + alpha01), Nat.zero_add]
    rw [if_pos ⟨Nat.zero_le _, by omega, by omega, by omega⟩, hdivEq, hmodEq,
      resizePix_eq_dims src w h p hw hp]
    have hsplit : c = 0 ∨ c = 1 ∨ c = 2 := by omega
    rcases hsplit with rfl | rfl | rfl
    · show clampStore (src.getD (3 * p) 0) = src.getD (3 * p + 0) 0
      rw [Nat.add_zero, clampStore, min_eq_left (hsrc _)]
    · show clampStore (src.getD (3 * p + 1) 0) = src.getD (3 * p + 1) 0
      rw [clampStore, min_eq_left (hsrc _)]
    · show clampStore (src.getD (3 * p + 2) 0) = src.getD (3 * p + 2) 0
      rw [clampStore, min_eq_left (hsrc _)]
  · intro j hj
    rw [fillPixels_getD _ hstep, if_neg ?_]
    rintro ⟨-, hlt, hmod, -⟩
    rw [Nat.sub_zero] at hmod
    rcases hj with hj | hj
    · omega
    · omega

theorem C6_resize_identity_witness :
    (((0 : Nat) = 0 ∨ (0 : Nat) = 1) ∧ (2 : Nat) ≤ 21846 ∧
      (∀ i, [1, 2, 3, 4, 5, 6].getD i 0 ≤ 255) ∧
      1 * 2 * (3 + 0) ≤ [9, 9, 9, 9, 9, 9, 9].length) ∧
    ((∀ p c, p < 1 * 2 → c < 3 →
      (resizeRgbImage [1, 2, 3, 4, 5, 6] [9, 9, 9, 9, 9, 9, 9] 2 1 2 1 0).getD
          (p * (3 + 0) + c) 0 = [1, 2, 3, 4, 5, 6].getD (3 * p + c) 0) ∧
    (∀ j, 1 * 2 * (3 + 0) ≤ j ∨ 3 ≤ j % (3 + 0) →
      (resizeRgbImage [1, 2, 3, 4, 5, 6] [9, 9, 9, 9, 9, 9, 9] 2 1 2 1 0).getD j 0 =
        [9, 9, 9, 9, 9, 9, 9].getD j 0)) :=
  ⟨⟨Or.inl rfl, by decide,
    fun i => by
      match i with
      | 0 => decide
      | 1 => decide
      | 2 => decide
      | 3 => decide
      | 4 => decide
      | 5 => decide
      | (k + 6) => simp [List.getD],
    by decide⟩,
   C6_resize_identity [1, 2, 3, 4, 5, 6] [9, 9, 9, 9, 9, 9, 9] 2 1 0 (Or.inl rfl)
     (by decide)
     (fun i => by
       match i with
       | 0 => decide
       | 1 => decide
       | 2 => decide
       | 3 => decide
       | 4 => decide
       | 5 => decide
       | (k + 6) => simp [List.getD])
     (by decide)⟩

/-- C6, refuted as stated for widths past the `Uint16Array` range: with
`w1 = w2 = 21847`, `h1 = h2 = 1`, `alpha01 = 0`, output pixel 21846 should
receive `src[3 * 21846 .. 3 * 21846 + 2]`, but `xScaled[21846]` stores
`3 * 21846 = 65538` wrapped modulo `2^16`, i.e. 2, so the code copies
`src[2]` (= 0) instead of `src[65538]` (= 7): the resize at equal
dimensions is not the identity. -/
theorem C6_counterexample :
    (resizeRgbImage (List.replicate 65538 0 ++ [7, 8, 9]) (List.replicate 65541 0)
        21847 1 21847 1 0).getD (21846 * (3 + 0) + 0) 0 ≠
      (List.replicate 65538 0 ++ [7, 8, 9]).getD (3 * 21846 + 0) 0 := by
  have hq : ((21847 : Nat) : ℚ) ≠ 0 := by
    norm_num
  rw [resizeRgbImage_norm _ _ _ _ _ _ _ (Or.inl rfl),
    fillPixels_getD (3 + 0) (by omega)]
  rw [if_pos ⟨Nat.zero_le _, by norm_num, by norm_num, by rw [List.length_replicate]; norm_num⟩]
  have hdiv : (21846 * (3 + 0) + 0 - 0) / (3 + 0) = 21846 := by norm_num
  have hmod : (21846 * (3 + 0) + 0 - 0) % (3 + 0) = 0 := by norm_num
  rw [hdiv, hmod]
  have hsrcv : ∀ idx : Nat, idx < 65538 →
      (List.replicate 65538 (0 : Nat) ++ [7, 8, 9]).getD idx 0 = 0 := by
    intro idx hidx
    rw [List.getD_eq_getElem?_getD, List.getElem?_append,
      if_pos (by rw [List.length_replicate]; exact hidx), List.getElem?_replicate,
      if_pos hidx]
    rfl
  have hpix : resizePix (List.replicate 65538 0 ++ [7, 8, 9]) 21847 1 21847 1 21846 =
      (0, 0, 0) := by
    have hxs : ((List.range 21847).map
        (fun (i : Nat) => ((⌊((i : ℚ) * ((21847 : Nat) : ℚ) / ((21847 : Nat) : ℚ))⌋).toNat * 3)
          % 65536)).getD (21846 % 21847) 0 = 2 := by
      rw [show (21846 : Nat) % 21847 = 21846 by norm_num, List.getD_eq_getElem?_getD,
        List.getElem?_map, List.getElem?_range (by norm_num : (21846 : Nat) < 21847)]
      show ((⌊(((21846 : Nat) : ℚ) * ((21847 : Nat) : ℚ) / ((21847 : Nat) : ℚ))⌋).toNat * 3)
          % 65536 = 2
      rw [mul_div_assoc, div_self hq, mul_one, Int.floor_natCast, Int.toNat_natCast]
    have hpy : (⌊((((21846 : Nat) / 21847 : Nat) : ℚ)) * ((1 : Nat) : ℚ) /
        ((1 : Nat) : ℚ)⌋).toNat * (21847 * 3) = 0 := by
      norm_num
    simp only [resizePix, hxs, hpy]
    rw [show (0 : Nat) + 2 = 2 from rfl, show (2 : Nat) + 1 = 3 from rfl,
      show (2 : Nat) + 2 = 4 from rfl]
    rw [hsrcv 2 (by norm_num), hsrcv 3 (by norm_num), hsrcv 4 (by norm_num)]
  rw [hpix]
  have hrhs : (List.replicate 65538 0 ++ [7, 8, 9]).getD (3 * 21846 + 0) 0 = 7 := by
    rw [List.getD_eq_getElem?_getD, List.getElem?_append,
      if_neg (by rw [List.length_replicate]; norm_num)]
    rw [List.length_replicate]
    norm_num
  rw [hrhs]
  decide

/-- C1, refuted as stated at `actualHeight < originalHeight`: an Indexed
space over a DeviceRGB base with palette `[10,20,30,40,50,60]`, `bpc = 1`,
a `1 x 3` image with `actualHeight = 2` and all-ones samples.  The fast path
writes all `originalWidth * originalHeight = 3` pixels, while the direct
path (one `getRgbBuffer` call of `width * actualHeight = 2` samples) leaves
the third pixel's bytes of `dest` untouched, so the written bytes differ. -/
theorem C1_counterexample :
    fillRgbV (indexedRgbV [10, 20, 30, 40, 50, 60]) [9, 9, 9, 9, 9, 9, 9, 9, 9]
        1 3 1 3 2 1 [1, 1, 1] 0 ≠
      getRgbBufferV (indexedRgbV [10, 20, 30, 40, 50, 60]) [1, 1, 1] 0 (1 * 2)
        [9, 9, 9, 9, 9, 9, 9, 9, 9] 0 1 0 := by
  decide

theorem C1_fastPath_eq_direct_witness :
    fillRgbV (indexedRgbV [10, 20, 30, 40, 50, 60]) [9, 9, 9, 9, 9, 9, 9, 9, 9]
        1 3 1 3 3 1 [1, 0, 1] 0 =
      getRgbBufferV (indexedRgbV [10, 20, 30, 40, 50, 60]) [1, 0, 1] 0 (1 * 3)
        [9, 9, 9, 9, 9, 9, 9, 9, 9] 0 1 0 :=
  C1_fastPath_eq_direct (indexedRgbV [10, 20, 30, 40, 50, 60])
    (fun v => ([10, 20, 30, 40, 50, 60].getD (v * 3) 0,
      [10, 20, 30, 40, 50, 60].getD (v * 3 + 1) 0,
      [10, 20, 30, 40, 50, 60].getD (v * 3 + 2) 0))
    [9, 9, 9, 9, 9, 9, 9, 9, 9] 1 3 1 3 3 1 [1, 0, 1] 0
    (fun _ _ => rfl) rfl (by decide) (by decide) rfl (by decide) rfl rfl rfl
    (by decide) (by decide)

end PdfCS
